import Mathlib

/-!
Shallow embedding of the traffic-light arbitration core of ITLMS.py,
class TrafficLightSystem: the light registry, emergency and density
arbitration (update_traffic_light / update_traffic_with_lock), the
overdue-road sweep (check_and_open_overdue_road), and proofs of the
system invariants.

Python dictionaries are modelled as insertion-ordered association lists;
timestamps as integers, with every time.time() call inside one operation
returning the same instant; exceptions as an Except carrying the state
at the raise point (mutations performed before the raise are kept, as
Python keeps in-place mutations of self).
-/

namespace ITLMS

/-- Road identifiers, the Python dict keys such as "Road1". -/
abbrev Road := String

/-- Per-road vehicle counts, the dict stored in road_data[road][0].
The tracked-id length road_data[road][1] is never read by the traffic
logic and is omitted. -/
structure Counts where
  ambulance : Nat
  firefighter : Nat
  police : Nat
  traffic : Nat
  car : Nat
  deriving DecidableEq

/-- One value of last_open_data: the dict with keys "time" and "open_road". -/
structure OpenRec where
  time : Int
  open_road : Road
  deriving DecidableEq

/-- Python dict lookup d[a] on an insertion-ordered association list. -/
def lookupA {β : Type} : List (Road × β) → Road → Option β
  | [], _ => none
  | (k, v) :: rest, a => if a = k then some v else lookupA rest a

/-- Python dict assignment d[a] = b: overwrite in place if the key is
present, otherwise append at the end (insertion order). -/
def updateA {β : Type} : List (Road × β) → Road → β → List (Road × β)
  | [], a, b => [(a, b)]
  | (k, v) :: rest, a, b =>
    if a = k then (a, b) :: rest else (k, v) :: updateA rest a b

/-- The mutable attributes of a TrafficLightSystem instance (the GUI and
video-processor handles are display-sink collaborators and are omitted). -/
structure ITLState where
  road_data : Option (List (Road × Counts))
  traffic_lights : List (Road × Bool)
  last_open_data : List (Road × OpenRec)
  last_open_time_em : Int
  deriving DecidableEq

/-- TrafficLightSystem.__init__: all lights closed, no bookkeeping,
no snapshot cache, last_open_time_em = 0. -/
def initState (roads : List Road) : ITLState :=
  { road_data := none
    traffic_lights := roads.map (fun r => (r, false))
    last_open_data := []
    last_open_time_em := 0 }

/-- TrafficLightSystem.lock_traffic: reading traffic_lights[road] raises
KeyError on a missing key (error value); an already-red light is left
unchanged, otherwise the light is set to red. -/
def lock_traffic (s : ITLState) (road : Road) : Except ITLState ITLState :=
  match lookupA s.traffic_lights road with
  | none => .error s
  | some b =>
    if b then .ok { s with traffic_lights := updateA s.traffic_lights road false }
    else .ok s

/-- TrafficLightSystem.unlock_traffic: reading traffic_lights[road] raises
KeyError on a missing key; an already-green light is left unchanged,
otherwise the light is set to green. -/
def unlock_traffic (s : ITLState) (road : Road) : Except ITLState ITLState :=
  match lookupA s.traffic_lights road with
  | none => .error s
  | some b =>
    if b then .ok s
    else .ok { s with traffic_lights := updateA s.traffic_lights road true }

/-- The shared lock loop: for prev_road in last_open_data.keys(), if
last_open_data[prev_road]["open_road"] differs from the target, lock it.
A KeyError from lock_traffic aborts the loop, keeping the locks already
performed. -/
def lockOthers (target : Road) :
    List (Road × OpenRec) → ITLState → Except ITLState ITLState
  | [], s => .ok s
  | (r, rec) :: rest, s =>
    if rec.open_road = target then lockOthers target rest s
    else
      match lock_traffic s r with
      | .ok s1 => lockOthers target rest s1
      | .error s1 => .error s1

/-- The shared transition body: lock every other bookkept road, unlock the
target, write last_open_data[target] = {"time": now, "open_road": target}
and store newEm into last_open_time_em. A KeyError anywhere aborts with
the partially mutated state. -/
def applyTransition (target : Road) (now newEm : Int) (s : ITLState) :
    Except ITLState ITLState :=
  match lockOthers target s.last_open_data s with
  | .error s1 => .error s1
  | .ok s1 =>
    match unlock_traffic s1 target with
    | .error s2 => .error s2
    | .ok s2 =>
      .ok { s2 with
              last_open_data := updateA s2.last_open_data target ⟨now, target⟩
              last_open_time_em := newEm }

/-- The time stored for a road by last_open_data.get(road, {}).get("time", 0). -/
def bookTime (s : ITLState) (road : Road) : Int :=
  match lookupA s.last_open_data road with
  | some rec => rec.time
  | none => 0

/-- The else branch of update_traffic_with_lock: the density transition is
applied only when the road is a known light that is red, its bookkeeping
time (default 0) is at least 10 units old, no emergency is flagged, and
at least 10 units passed since last_open_time_em; it then clears
last_open_time_em to 0. A road missing from traffic_lights fails the
membership test and nothing happens. -/
def densityBranch (s : ITLState) (now : Int) (road : Road) (has_em : Bool) :
    Except ITLState ITLState :=
  match lookupA s.traffic_lights road with
  | none => .ok s
  | some b =>
    if b = false ∧ 10 ≤ now - bookTime s road ∧ has_em = false ∧
        10 ≤ now - s.last_open_time_em then
      applyTransition road now 0 s
    else .ok s

/-- The try body of update_traffic_with_lock: the emergency branch runs
when has_em holds and the road's light is red (a missing key raises);
otherwise, also when the emergency road is already green, the guarded
density branch runs. -/
def utwlAttempt (s : ITLState) (now : Int) (road : Road) (has_em : Bool) :
    Except ITLState ITLState :=
  if has_em then
    match lookupA s.traffic_lights road with
    | none => .error s
    | some b =>
      if b then densityBranch s now road has_em
      else applyTransition road now now s
  else densityBranch s now road has_em

/-- TrafficLightSystem.update_traffic_with_lock: run the try body; a
KeyError from it is caught and last_open_data[road] is seeded with the
current time on the state as already mutated. -/
def update_traffic_with_lock (s : ITLState) (now : Int) (road : Road)
    (has_em : Bool) : ITLState :=
  match utwlAttempt s now road has_em with
  | .ok s1 => s1
  | .error s1 =>
    { s1 with last_open_data := updateA s1.last_open_data road ⟨now, road⟩ }

/-- Whether a road's counts contain any emergency vehicle. -/
def hasEmergencyCounts (c : Counts) : Bool :=
  0 < c.ambulance || 0 < c.firefighter || 0 < c.police

/-- The demand score of a road: sum of all count fields of its snapshot. -/
def totalCount (c : Counts) : Nat :=
  c.ambulance + c.firefighter + c.police + c.traffic + c.car

/-- Python max(d, key=d.get): the first key in insertion order attaining
the maximum value; a later key replaces the best only when strictly
greater. -/
def argmaxFrom (f : Counts → Nat) (best : Road × Counts) :
    List (Road × Counts) → Road
  | [] => best.1
  | q :: rest =>
    if f q.2 > f best.2 then argmaxFrom f q rest else argmaxFrom f best rest

/-- TrafficLightSystem.update_traffic_light: return when road_data is None;
with an emergency anywhere, the per-road scan breaks at the first road
whose counts contain any emergency vehicle; without an emergency, max of
an empty dict raises ValueError (error value), otherwise the first road
with maximal demand score gets the density-guarded transition. -/
def update_traffic_light (s : ITLState) (now : Int) :
    Except ITLState ITLState :=
  match s.road_data with
  | none => .ok s
  | some rd =>
    if rd.any (fun p => hasEmergencyCounts p.2) then
      match rd.find? (fun p => hasEmergencyCounts p.2) with
      | some p => .ok (update_traffic_with_lock s now p.1 true)
      | none => .ok s
    else
      match rd with
      | [] => .error s
      | p :: rest =>
        .ok (update_traffic_with_lock s now (argmaxFrom totalCount p rest) false)

/-- TrafficLightSystem.process_and_update_traffic: refresh the snapshot
cache from the video processor, then run update_traffic_light. -/
def process_and_update_traffic (s : ITLState) (rd : List (Road × Counts))
    (now : Int) : Except ITLState ITLState :=
  update_traffic_light { s with road_data := some rd } now

/-- The car count road_data[r][0]["car"] as read by the sweep, with 0 when
the road has no snapshot (that access path raises instead; the raising
cases are handled by eligibleFrom). -/
def carOf (s : ITLState) (r : Road) : Nat :=
  match s.road_data with
  | none => 0
  | some rd =>
    match lookupA rd r with
    | some c => c.car
    | none => 0

/-- The eligibility comprehension of check_and_open_overdue_road: bookkept
roads, in insertion order, whose wait is at least 10 and whose snapshot
has car > 0. Reading road_data[r] for a road with no snapshot, or with
road_data still None, raises (error value). -/
def eligibleFrom (s : ITLState) (now : Int) :
    List (Road × OpenRec) → Except Unit (List Road)
  | [] => .ok []
  | (r, rec) :: rest =>
    if 10 ≤ now - rec.time then
      match s.road_data with
      | none => .error ()
      | some rd =>
        match lookupA rd r with
        | none => .error ()
        | some c =>
          match eligibleFrom s now rest with
          | .error e => .error e
          | .ok l => .ok (if 0 < c.car then r :: l else l)
    else eligibleFrom s now rest

/-- Python max(eligible, key=car count): first maximum in list order. -/
def argmaxCar (s : ITLState) (best : Road) : List Road → Road
  | [] => best
  | r :: rest =>
    if carOf s r > carOf s best then argmaxCar s r rest
    else argmaxCar s best rest

/-- The scan of check_and_open_overdue_road: walk the bookkept roads in
insertion order; at the first one at least 120 units old, build the
eligible set, transition to the max-car eligible road when the set is
non-empty, and stop (the break sits inside the overdue test but outside
the eligibility test). The sweep never touches last_open_time_em, and a
KeyError inside it propagates to the caller. -/
def sweepScan (s : ITLState) (now : Int) :
    List (Road × OpenRec) → Except ITLState ITLState
  | [] => .ok s
  | (_, rec) :: rest =>
    if 120 ≤ now - rec.time then
      match eligibleFrom s now s.last_open_data with
      | .error _ => .error s
      | .ok [] => .ok s
      | .ok (e :: es) =>
        applyTransition (argmaxCar s e es) now s.last_open_time_em s
    else sweepScan s now rest

/-- TrafficLightSystem.check_and_open_overdue_road. -/
def check_and_open_overdue_road (s : ITLState) (now : Int) :
    Except ITLState ITLState :=
  sweepScan s now s.last_open_data

/-- The state after a call, whether it returned or raised: Python keeps all
mutations performed before a raise. -/
def stateOf : Except ITLState ITLState → ITLState
  | .ok s => s
  | .error s => s

instance {ε α : Type} [DecidableEq ε] [DecidableEq α] :
    DecidableEq (Except ε α) := fun a b =>
  match a, b with
  | .error x, .error y =>
    if h : x = y then .isTrue (congrArg Except.error h)
    else .isFalse fun hc => h (Except.error.inj hc)
  | .ok x, .ok y =>
    if h : x = y then .isTrue (congrArg Except.ok h)
    else .isFalse fun hc => h (Except.ok.inj hc)
  | .error _, .ok _ => .isFalse fun hc => Except.noConfusion hc
  | .ok _, .error _ => .isFalse fun hc => Except.noConfusion hc

/-- The external entry points that drive the system: a tick (snapshot
refresh plus update_traffic_light) and an overdue sweep. -/
inductive SysStep where
  | tick (rd : List (Road × Counts)) (now : Int)
  | sweep (now : Int)

/-- The instant at which a step runs. -/
def stepTime : SysStep → Int
  | .tick _ now => now
  | .sweep now => now

/-- Execute one entry-point call, keeping the state even when it raises. -/
def applyStep (s : ITLState) : SysStep → ITLState
  | .tick rd now => stateOf (process_and_update_traffic s rd now)
  | .sweep now => stateOf (check_and_open_overdue_road s now)

/-- Execute a sequence of entry-point calls. -/
def runSteps (s : ITLState) (steps : List SysStep) : ITLState :=
  steps.foldl applyStep s

/-- The states reachable from the initial state through the external entry
points, with arbitrary snapshots and instants. -/
inductive Reachable (roads : List Road) : ITLState → Prop
  | init : Reachable roads (initState roads)
  | step {s : ITLState} (st : SysStep) :
      Reachable roads s → Reachable roads (applyStep s st)

/-- Every green road has a bookkeeping entry. -/
def openImpliesBook (s : ITLState) : Prop :=
  ∀ p ∈ s.traffic_lights, p.2 = true →
    (lookupA s.last_open_data p.1).isSome = true

/-- Every bookkeeping entry stores its own key in the open_road field. -/
def openRoadKeyInv (s : ITLState) : Prop :=
  ∀ p ∈ s.last_open_data, p.2.open_road = p.1

/-- At most one road is green. -/
def atMostOneOpen (s : ITLState) : Prop :=
  ∀ p ∈ s.traffic_lights, ∀ q ∈ s.traffic_lights,
    p.2 = true → q.2 = true → p.1 = q.1

/-- The registry maps have no duplicate keys. -/
def keysNodup (s : ITLState) : Prop :=
  (s.traffic_lights.map Prod.fst).Nodup ∧
    (s.last_open_data.map Prod.fst).Nodup

/-- The full system invariant. -/
def SysInv (s : ITLState) : Prop :=
  keysNodup s ∧ openImpliesBook s ∧ openRoadKeyInv s ∧ atMostOneOpen s

instance : DecidablePred openImpliesBook := fun s => by
  unfold openImpliesBook; infer_instance

instance : DecidablePred openRoadKeyInv := fun s => by
  unfold openRoadKeyInv; infer_instance

instance : DecidablePred atMostOneOpen := fun s => by
  unfold atMostOneOpen; infer_instance

instance : DecidablePred keysNodup := fun s => by
  unfold keysNodup; infer_instance

instance : DecidablePred SysInv := fun s => by
  unfold SysInv; infer_instance

/-! ### Association-list lemmas -/

theorem lookupA_mem {β : Type} {l : List (Road × β)} {a : Road} {b : β}
    (h : lookupA l a = some b) : (a, b) ∈ l := by
  induction l with
  | nil => simp [lookupA] at h
  | cons p rest ih =>
    obtain ⟨k, v⟩ := p
    simp only [lookupA] at h
    by_cases hk : a = k
    · subst hk
      rw [if_pos rfl] at h
      injection h with h
      subst h
      exact List.mem_cons_self _ _
    · rw [if_neg hk] at h
      exact List.mem_cons_of_mem _ (ih h)

theorem lookupA_eq_none_iff {β : Type} {l : List (Road × β)} {a : Road} :
    lookupA l a = none ↔ a ∉ l.map Prod.fst := by
  induction l with
  | nil => simp [lookupA]
  | cons p rest ih =>
    obtain ⟨k, v⟩ := p
    by_cases hk : a = k
    · subst hk
      simp [lookupA]
    · simp [lookupA, if_neg hk, hk, ih]

theorem lookupA_isSome_iff {β : Type} {l : List (Road × β)} {a : Road} :
    (lookupA l a).isSome = true ↔ a ∈ l.map Prod.fst := by
  induction l with
  | nil => simp [lookupA]
  | cons p rest ih =>
    obtain ⟨k, v⟩ := p
    by_cases hk : a = k
    · subst hk
      simp [lookupA]
    · simp [lookupA, if_neg hk, hk, ih]

theorem mem_lookupA {β : Type} {l : List (Road × β)} {a : Road} {b : β}
    (hn : (l.map Prod.fst).Nodup) (h : (a, b) ∈ l) : lookupA l a = some b := by
  induction l with
  | nil => simp at h
  | cons p rest ih =>
    obtain ⟨k, v⟩ := p
    simp only [List.map_cons, List.nodup_cons] at hn
    rcases List.mem_cons.mp h with heq | hmem
    · obtain ⟨rfl, rfl⟩ := Prod.mk.injEq .. ▸ heq
      simp [lookupA]
    · have hak : a ≠ k := by
        rintro rfl
        exact hn.1 (List.mem_map.mpr ⟨(a, b), hmem, rfl⟩)
      simp only [lookupA, if_neg hak]
      exact ih hn.2 hmem

theorem lookupA_updateA_self {β : Type} {l : List (Road × β)} {a : Road}
    {b : β} : lookupA (updateA l a b) a = some b := by
  induction l with
  | nil => simp [updateA, lookupA]
  | cons p rest ih =>
    obtain ⟨k, v⟩ := p
    by_cases hk : a = k
    · subst hk
      simp [updateA, lookupA]
    · simp [updateA, lookupA, if_neg hk, hk, ih]

theorem lookupA_updateA_ne {β : Type} {l : List (Road × β)} {a c : Road}
    {b : β} (h : c ≠ a) : lookupA (updateA l a b) c = lookupA l c := by
  induction l with
  | nil => simp [updateA, lookupA, if_neg h]
  | cons p rest ih =>
    obtain ⟨k, v⟩ := p
    by_cases hk : a = k
    · subst hk
      simp [updateA, lookupA, if_neg h]
    · by_cases hck : c = k
      · subst hck
        simp [updateA, lookupA, if_neg hk]
      · simp [updateA, lookupA, if_neg hk, if_neg hck, ih]

theorem mem_updateA {β : Type} {l : List (Road × β)} {a : Road} {b : β}
    {p : Road × β} (h : p ∈ updateA l a b) : p ∈ l ∨ p = (a, b) := by
  induction l with
  | nil =>
    simp [updateA] at h
    exact Or.inr h
  | cons q rest ih =>
    obtain ⟨k, v⟩ := q
    by_cases hk : a = k
    · subst hk
      simp only [updateA, if_pos rfl] at h
      rcases List.mem_cons.mp h with heq | hmem
      · exact Or.inr heq
      · exact Or.inl (List.mem_cons_of_mem _ hmem)
    · simp only [updateA, if_neg hk] at h
      rcases List.mem_cons.mp h with heq | hmem
      · exact Or.inl (heq ▸ List.mem_cons_self _ _)
      · rcases ih hmem with h1 | h2
        · exact Or.inl (List.mem_cons_of_mem _ h1)
        · exact Or.inr h2

theorem keys_updateA_isSome {β : Type} {l : List (Road × β)} {a : Road}
    {b : β} (h : (lookupA l a).isSome = true) :
    (updateA l a b).map Prod.fst = l.map Prod.fst := by
  induction l with
  | nil => simp [lookupA] at h
  | cons p rest ih =>
    obtain ⟨k, v⟩ := p
    by_cases hk : a = k
    · subst hk
      simp [updateA]
    · simp only [lookupA, if_neg hk] at h
      simp [updateA, if_neg hk, ih h]

theorem nodup_updateA {β : Type} {l : List (Road × β)} {a : Road} {b : β}
    (hn : (l.map Prod.fst).Nodup) :
    ((updateA l a b).map Prod.fst).Nodup := by
  induction l with
  | nil => simp [updateA]
  | cons p rest ih =>
    obtain ⟨k, v⟩ := p
    simp only [List.map_cons, List.nodup_cons] at hn
    by_cases hk : a = k
    · subst hk
      simpa [updateA] using hn
    · simp only [updateA, if_neg hk, List.map_cons, List.nodup_cons]
      refine ⟨fun hmem => ?_, ih hn.2⟩
      rcases List.mem_map.mp hmem with ⟨q, hq, hfst⟩
      rcases mem_updateA hq with h1 | h2
      · exact hn.1 (List.mem_map.mpr ⟨q, h1, hfst⟩)
      · subst h2
        exact hk hfst

/-! ### lock_traffic and unlock_traffic lemmas -/

theorem lock_error_eq {s s1 : ITLState} {r : Road}
    (h : lock_traffic s r = .error s1) : s1 = s := by
  unfold lock_traffic at h
  cases hl : lookupA s.traffic_lights r with
  | none =>
    rw [hl] at h
    injection h with h
    exact h.symm
  | some b =>
    rw [hl] at h
    by_cases hb : b = true
    · subst hb; simp at h
    · simp only [Bool.not_eq_true] at hb
      subst hb; simp at h

theorem lock_ok_frame {s s1 : ITLState} {r : Road}
    (h : lock_traffic s r = .ok s1) :
    s1.road_data = s.road_data ∧ s1.last_open_data = s.last_open_data ∧
      s1.last_open_time_em = s.last_open_time_em ∧
      s1.traffic_lights.map Prod.fst = s.traffic_lights.map Prod.fst := by
  unfold lock_traffic at h
  cases hl : lookupA s.traffic_lights r with
  | none => rw [hl] at h; simp at h
  | some b =>
    rw [hl] at h
    by_cases hb : b = true
    · subst hb
      simp only [if_pos rfl] at h
      injection h with h
      subst h
      refine ⟨rfl, rfl, rfl, ?_⟩
      exact keys_updateA_isSome (by simp [hl])
    · simp only [Bool.not_eq_true] at hb
      subst hb
      simp only [Bool.false_eq_true, if_neg Bool.false_ne_true] at h
      injection h with h
      subst h
      exact ⟨rfl, rfl, rfl, rfl⟩

theorem lock_ok_self {s s1 : ITLState} {r : Road}
    (h : lock_traffic s r = .ok s1) :
    lookupA s1.traffic_lights r = some false := by
  unfold lock_traffic at h
  cases hl : lookupA s.traffic_lights r with
  | none => rw [hl] at h; simp at h
  | some b =>
    rw [hl] at h
    by_cases hb : b = true
    · subst hb
      simp only [if_pos rfl] at h
      injection h with h
      subst h
      exact lookupA_updateA_self
    · simp only [Bool.not_eq_true] at hb
      subst hb
      simp only [Bool.false_eq_true, if_neg Bool.false_ne_true] at h
      injection h with h
      subst h
      exact hl

theorem lock_ok_lookup_ne {s s1 : ITLState} {r q : Road}
    (h : lock_traffic s r = .ok s1) (hq : q ≠ r) :
    lookupA s1.traffic_lights q = lookupA s.traffic_lights q := by
  unfold lock_traffic at h
  cases hl : lookupA s.traffic_lights r with
  | none => rw [hl] at h; simp at h
  | some b =>
    rw [hl] at h
    by_cases hb : b = true
    · subst hb
      simp only [if_pos rfl] at h
      injection h with h
      subst h
      exact lookupA_updateA_ne hq
    · simp only [Bool.not_eq_true] at hb
      subst hb
      simp only [Bool.false_eq_true, if_neg Bool.false_ne_true] at h
      injection h with h
      subst h
      rfl

theorem lock_ok_mono {s s1 : ITLState} {r q : Road}
    (h : lock_traffic s r = .ok s1)
    (hq : lookupA s1.traffic_lights q = some true) :
    lookupA s.traffic_lights q = some true := by
  by_cases hqr : q = r
  · subst hqr
    rw [lock_ok_self h] at hq
    simp at hq
  · rw [← lock_ok_lookup_ne h hqr]
    exact hq

theorem unlock_error_eq {s s1 : ITLState} {r : Road}
    (h : unlock_traffic s r = .error s1) : s1 = s := by
  unfold unlock_traffic at h
  cases hl : lookupA s.traffic_lights r with
  | none =>
    rw [hl] at h
    injection h with h
    exact h.symm
  | some b =>
    rw [hl] at h
    by_cases hb : b = true
    · subst hb; simp at h
    · simp only [Bool.not_eq_true] at hb
      subst hb
      simp only [Bool.false_eq_true, if_neg Bool.false_ne_true] at h
      exact absurd h (by simp)

theorem unlock_ok_frame {s s1 : ITLState} {r : Road}
    (h : unlock_traffic s r = .ok s1) :
    s1.road_data = s.road_data ∧ s1.last_open_data = s.last_open_data ∧
      s1.last_open_time_em = s.last_open_time_em ∧
      s1.traffic_lights.map Prod.fst = s.traffic_lights.map Prod.fst := by
  unfold unlock_traffic at h
  cases hl : lookupA s.traffic_lights r with
  | none => rw [hl] at h; simp at h
  | some b =>
    rw [hl] at h
    by_cases hb : b = true
    · subst hb
      simp only [if_pos rfl] at h
      injection h with h
      subst h
      exact ⟨rfl, rfl, rfl, rfl⟩
    · simp only [Bool.not_eq_true] at hb
      subst hb
      simp only [Bool.false_eq_true, if_neg Bool.false_ne_true] at h
      injection h with h
      subst h
      refine ⟨rfl, rfl, rfl, ?_⟩
      exact keys_updateA_isSome (by simp [hl])

theorem unlock_ok_self {s s1 : ITLState} {r : Road}
    (h : unlock_traffic s r = .ok s1) :
    lookupA s1.traffic_lights r = some true := by
  unfold unlock_traffic at h
  cases hl : lookupA s.traffic_lights r with
  | none => rw [hl] at h; simp at h
  | some b =>
    rw [hl] at h
    by_cases hb : b = true
    · subst hb
      simp only [if_pos rfl] at h
      injection h with h
      subst h
      exact hl
    · simp only [Bool.not_eq_true] at hb
      subst hb
      simp only [Bool.false_eq_true, if_neg Bool.false_ne_true] at h
      injection h with h
      subst h
      exact lookupA_updateA_self

theorem unlock_ok_lookup_ne {s s1 : ITLState} {r q : Road}
    (h : unlock_traffic s r = .ok s1) (hq : q ≠ r) :
    lookupA s1.traffic_lights q = lookupA s.traffic_lights q := by
  unfold unlock_traffic at h
  cases hl : lookupA s.traffic_lights r with
  | none => rw [hl] at h; simp at h
  | some b =>
    rw [hl] at h
    by_cases hb : b = true
    · subst hb
      simp only [if_pos rfl] at h
      injection h with h
      subst h
      rfl
    · simp only [Bool.not_eq_true] at hb
      subst hb
      simp only [Bool.false_eq_true, if_neg Bool.false_ne_true] at h
      injection h with h
      subst h
      exact lookupA_updateA_ne hq

/-! ### lockOthers lemmas -/

theorem lockOthers_frame (target : Road) :
    ∀ (entries : List (Road × OpenRec)) (s : ITLState),
    (stateOf (lockOthers target entries s)).road_data = s.road_data ∧
      (stateOf (lockOthers target entries s)).last_open_data =
        s.last_open_data ∧
      (stateOf (lockOthers target entries s)).last_open_time_em =
        s.last_open_time_em ∧
      (stateOf (lockOthers target entries s)).traffic_lights.map Prod.fst =
        s.traffic_lights.map Prod.fst := by
  intro entries
  induction entries with
  | nil => intro s; exact ⟨rfl, rfl, rfl, rfl⟩
  | cons p rest ih =>
    intro s
    obtain ⟨r, rec⟩ := p
    by_cases hf : rec.open_road = target
    · simpa [lockOthers, hf] using ih s
    · simp only [lockOthers, if_neg hf]
      cases hlock : lock_traffic s r with
      | ok s1 =>
        obtain ⟨h1, h2, h3, h4⟩ := lock_ok_frame hlock
        obtain ⟨g1, g2, g3, g4⟩ := ih s1
        exact ⟨g1.trans h1, g2.trans h2, g3.trans h3, g4.trans h4⟩
      | error s1 =>
        have := lock_error_eq hlock
        subst this
        exact ⟨rfl, rfl, rfl, rfl⟩

theorem lockOthers_mono (target : Road) :
    ∀ (entries : List (Road × OpenRec)) (s : ITLState) (q : Road),
    lookupA (stateOf (lockOthers target entries s)).traffic_lights q =
        some true →
      lookupA s.traffic_lights q = some true := by
  intro entries
  induction entries with
  | nil => intro s q h; exact h
  | cons p rest ih =>
    intro s q h
    obtain ⟨r, rec⟩ := p
    by_cases hf : rec.open_road = target
    · rw [lockOthers, if_pos hf] at h
      exact ih s q h
    · rw [lockOthers, if_neg hf] at h
      cases hlock : lock_traffic s r with
      | ok s1 =>
        rw [hlock] at h
        exact lock_ok_mono hlock (ih s1 q h)
      | error s1 =>
        rw [hlock] at h
        have := lock_error_eq hlock
        subst this
        exact h

theorem lockOthers_ok_closed (target : Road) :
    ∀ (entries : List (Road × OpenRec)) (s s1 : ITLState) (r : Road)
      (rec : OpenRec),
    lockOthers target entries s = .ok s1 → (r, rec) ∈ entries →
      rec.open_road ≠ target → lookupA s1.traffic_lights r ≠ some true := by
  intro entries
  induction entries with
  | nil =>
    intro s s1 r rec _ hmem
    simp at hmem
  | cons p rest ih =>
    intro s s1 r rec h hmem hne
    obtain ⟨r0, rec0⟩ := p
    rcases List.mem_cons.mp hmem with heq | hmem2
    · injection heq with h1 h2
      subst h1; subst h2
      rw [lockOthers, if_neg hne] at h
      cases hlock : lock_traffic s r with
      | ok s2 =>
        rw [hlock] at h
        dsimp only at h
        intro hopen
        have := lockOthers_mono target rest s2 r
          (by rw [h]; simpa [stateOf] using hopen)
        rw [lock_ok_self hlock] at this
        simp at this
      | error s2 =>
        rw [hlock] at h
        simp at h
    · by_cases hf : rec0.open_road = target
      · rw [lockOthers, if_pos hf] at h
        exact ih s s1 r rec h hmem2 hne
      · rw [lockOthers, if_neg hf] at h
        cases hlock : lock_traffic s r0 with
        | ok s2 =>
          rw [hlock] at h
          dsimp only at h
          exact ih s2 s1 r rec h hmem2 hne
        | error s2 =>
          rw [hlock] at h
          simp at h

theorem lockOthers_total (target : Road) :
    ∀ (entries : List (Road × OpenRec)) (s : ITLState),
    (∀ p ∈ entries, (lookupA s.traffic_lights p.1).isSome = true) →
      ∃ s1, lockOthers target entries s = .ok s1 := by
  intro entries
  induction entries with
  | nil => intro s _; exact ⟨s, rfl⟩
  | cons p rest ih =>
    intro s hkeys
    obtain ⟨r, rec⟩ := p
    by_cases hf : rec.open_road = target
    · rw [lockOthers, if_pos hf]
      exact ih s fun q hq => hkeys q (List.mem_cons_of_mem _ hq)
    · rw [lockOthers, if_neg hf]
      have hr := hkeys (r, rec) (List.mem_cons_self _ _)
      cases hlock : lock_traffic s r with
      | ok s1 =>
        refine ih s1 fun q hq => ?_
        have := hkeys q (List.mem_cons_of_mem _ hq)
        rw [lookupA_isSome_iff] at this ⊢
        rw [(lock_ok_frame hlock).2.2.2]
        exact this
      | error s1 =>
        exfalso
        unfold lock_traffic at hlock
        cases hl : lookupA s.traffic_lights r with
        | none => rw [hl] at hr; simp at hr
        | some b =>
          rw [hl] at hlock
          by_cases hb : b = true
          · subst hb; simp at hlock
          · simp only [Bool.not_eq_true] at hb
            subst hb
            simp only [Bool.false_eq_true, if_neg Bool.false_ne_true] at hlock
            exact absurd hlock (by simp)

/-! ### applyTransition lemmas -/

theorem AT_error_facts {target : Road} {now em : Int} {s s1 : ITLState}
    (h : applyTransition target now em s = .error s1) :
    s1.road_data = s.road_data ∧ s1.last_open_data = s.last_open_data ∧
      s1.last_open_time_em = s.last_open_time_em ∧
      s1.traffic_lights.map Prod.fst = s.traffic_lights.map Prod.fst ∧
      (∀ q, lookupA s1.traffic_lights q = some true →
        lookupA s.traffic_lights q = some true) := by
  unfold applyTransition at h
  cases hlo : lockOthers target s.last_open_data s with
  | error s2 =>
    rw [hlo] at h
    dsimp only at h
    injection h with h
    subst h
    have hframe := lockOthers_frame target s.last_open_data s
    have hmono := lockOthers_mono target s.last_open_data s
    rw [hlo] at hframe hmono
    dsimp only [stateOf] at hframe hmono
    exact ⟨hframe.1, hframe.2.1, hframe.2.2.1, hframe.2.2.2, hmono⟩
  | ok s2 =>
    rw [hlo] at h
    dsimp only at h
    cases hun : unlock_traffic s2 target with
    | error s3 =>
      rw [hun] at h
      dsimp only at h
      injection h with h
      subst h
      have := unlock_error_eq hun
      subst this
      have hframe := lockOthers_frame target s.last_open_data s
      have hmono := lockOthers_mono target s.last_open_data s
      rw [hlo] at hframe hmono
      dsimp only [stateOf] at hframe hmono
      exact ⟨hframe.1, hframe.2.1, hframe.2.2.1, hframe.2.2.2, hmono⟩
    | ok s3 =>
      rw [hun] at h
      simp at h

theorem AT_ok_facts {target : Road} {now em : Int} {s s1 : ITLState}
    (h : applyTransition target now em s = .ok s1) :
    s1.road_data = s.road_data ∧
      s1.last_open_data = updateA s.last_open_data target ⟨now, target⟩ ∧
      s1.last_open_time_em = em ∧
      s1.traffic_lights.map Prod.fst = s.traffic_lights.map Prod.fst ∧
      lookupA s1.traffic_lights target = some true ∧
      (∀ q, q ≠ target → lookupA s1.traffic_lights q = some true →
        lookupA s.traffic_lights q = some true) := by
  unfold applyTransition at h
  cases hlo : lockOthers target s.last_open_data s with
  | error s2 => rw [hlo] at h; simp at h
  | ok s2 =>
    rw [hlo] at h
    dsimp only at h
    cases hun : unlock_traffic s2 target with
    | error s3 => rw [hun] at h; simp at h
    | ok s3 =>
      rw [hun] at h
      dsimp only at h
      injection h with h
      subst h
      have hframe := lockOthers_frame target s.last_open_data s
      have hmono := lockOthers_mono target s.last_open_data s
      rw [hlo] at hframe hmono
      dsimp only [stateOf] at hframe hmono
      obtain ⟨f1, f2, f3, f4⟩ := hframe
      obtain ⟨u1, u2, u3, u4⟩ := unlock_ok_frame hun
      refine ⟨?_, ?_, ?_, ?_, ?_, ?_⟩
      · exact u1.trans f1
      · dsimp only
        rw [u2, f2]
      · rfl
      · dsimp only
        exact u4.trans f4
      · dsimp only
        exact unlock_ok_self hun
      · intro q hq hopen
        dsimp only at hopen
        have h2 : lookupA s2.traffic_lights q = some true := by
          rw [← unlock_ok_lookup_ne hun hq]
          exact hopen
        exact hmono q h2

theorem AT_success {target : Road} {now em : Int} {s : ITLState}
    (hkeys : ∀ p ∈ s.last_open_data,
      (lookupA s.traffic_lights p.1).isSome = true)
    (htarget : (lookupA s.traffic_lights target).isSome = true) :
    ∃ s1, applyTransition target now em s = .ok s1 := by
  obtain ⟨s2, hlo⟩ := lockOthers_total target s.last_open_data s hkeys
  have hframe := lockOthers_frame target s.last_open_data s
  rw [hlo] at hframe
  dsimp only [stateOf] at hframe
  have htarget2 : (lookupA s2.traffic_lights target).isSome = true := by
    rw [lookupA_isSome_iff] at htarget ⊢
    rw [hframe.2.2.2]
    exact htarget
  unfold applyTransition
  rw [hlo]
  dsimp only
  cases hl : lookupA s2.traffic_lights target with
  | none => rw [hl] at htarget2; simp at htarget2
  | some b =>
    cases hun : unlock_traffic s2 target with
    | error s3 =>
      exfalso
      unfold unlock_traffic at hun
      rw [hl] at hun
      by_cases hb : b = true
      · subst hb; simp at hun
      · simp only [Bool.not_eq_true] at hb
        subst hb
        simp only [Bool.false_eq_true, if_neg Bool.false_ne_true] at hun
        exact absurd hun (by simp)
    | ok s3 =>
      exact ⟨_, rfl⟩

/-! ### Invariant preservation -/

theorem sysInv_set_road_data {s : ITLState} {x : Option (List (Road × Counts))} :
    SysInv { s with road_data := x } ↔ SysInv s := Iff.rfl

theorem AT_ok_nontarget_closed {target : Road} {now em : Int}
    {s s1 : ITLState} (hob : openImpliesBook s) (hkey : openRoadKeyInv s)
    (h : applyTransition target now em s = .ok s1) {q : Road}
    (hq : q ≠ target) : lookupA s1.traffic_lights q ≠ some true := by
  intro hopen
  unfold applyTransition at h
  cases hlo : lockOthers target s.last_open_data s with
  | error s2 => rw [hlo] at h; simp at h
  | ok s2 =>
    rw [hlo] at h
    dsimp only at h
    cases hun : unlock_traffic s2 target with
    | error s3 => rw [hun] at h; simp at h
    | ok s3 =>
      rw [hun] at h
      dsimp only at h
      injection h with h
      subst h
      dsimp only at hopen
      have h2 : lookupA s2.traffic_lights q = some true := by
        rw [← unlock_ok_lookup_ne hun hq]
        exact hopen
      have hmono := lockOthers_mono target s.last_open_data s q
      rw [hlo] at hmono
      dsimp only [stateOf] at hmono
      have hs : lookupA s.traffic_lights q = some true := hmono h2
      have hmem : (q, true) ∈ s.traffic_lights := lookupA_mem hs
      have hsome := hob (q, true) hmem rfl
      obtain ⟨rec, hrec⟩ := Option.isSome_iff_exists.mp hsome
      have hmem2 : (q, rec) ∈ s.last_open_data := lookupA_mem hrec
      have hkeyq : rec.open_road = q := hkey (q, rec) hmem2
      have hnt : rec.open_road ≠ target := by rw [hkeyq]; exact hq
      exact lockOthers_ok_closed target s.last_open_data s s2 q rec hlo
        hmem2 hnt h2

theorem AT_inv_ok {target : Road} {now em : Int} {s s1 : ITLState}
    (hinv : SysInv s) (h : applyTransition target now em s = .ok s1) :
    SysInv s1 := by
  obtain ⟨⟨hnl, hnd⟩, hob, hkey, hone⟩ := hinv
  obtain ⟨f1, f2, f3, f4, f5, f6⟩ := AT_ok_facts h
  have hnl1 : (s1.traffic_lights.map Prod.fst).Nodup := by rw [f4]; exact hnl
  have hnd1 : (s1.last_open_data.map Prod.fst).Nodup := by
    rw [f2]; exact nodup_updateA hnd
  refine ⟨⟨hnl1, hnd1⟩, ?_, ?_, ?_⟩
  · intro p hp hpt
    obtain ⟨a, b⟩ := p
    cases hpt
    have hla : lookupA s1.traffic_lights a = some true := mem_lookupA hnl1 hp
    by_cases hat : a = target
    · subst hat
      rw [f2, lookupA_updateA_self]
      rfl
    · exact absurd hla (AT_ok_nontarget_closed hob hkey h hat)
  · intro p hp
    rw [f2] at hp
    rcases mem_updateA hp with h1 | h2
    · exact hkey p h1
    · subst h2; rfl
  · intro p hp q hq hpt hqt
    obtain ⟨a, b⟩ := p
    obtain ⟨c, d⟩ := q
    cases hpt
    cases hqt
    have hla : lookupA s1.traffic_lights a = some true := mem_lookupA hnl1 hp
    have hlc : lookupA s1.traffic_lights c = some true := mem_lookupA hnl1 hq
    have ha : a = target := by
      by_contra hat
      exact AT_ok_nontarget_closed hob hkey h hat hla
    have hc : c = target := by
      by_contra hct
      exact AT_ok_nontarget_closed hob hkey h hct hlc
    rw [ha, hc]

theorem AT_inv_error {target : Road} {now em : Int} {s s1 : ITLState}
    (hinv : SysInv s) (h : applyTransition target now em s = .error s1) :
    SysInv s1 := by
  obtain ⟨⟨hnl, hnd⟩, hob, hkey, hone⟩ := hinv
  obtain ⟨f1, f2, f3, f4, f5⟩ := AT_error_facts h
  have hnl1 : (s1.traffic_lights.map Prod.fst).Nodup := by rw [f4]; exact hnl
  have hnd1 : (s1.last_open_data.map Prod.fst).Nodup := by rw [f2]; exact hnd
  refine ⟨⟨hnl1, hnd1⟩, ?_, ?_, ?_⟩
  · intro p hp hpt
    obtain ⟨a, b⟩ := p
    cases hpt
    have hla : lookupA s1.traffic_lights a = some true := mem_lookupA hnl1 hp
    have hs : lookupA s.traffic_lights a = some true := f5 a hla
    have hmem : (a, true) ∈ s.traffic_lights := lookupA_mem hs
    have := hob (a, true) hmem rfl
    rw [f2]
    exact this
  · intro p hp
    rw [f2] at hp
    exact hkey p hp
  · intro p hp q hq hpt hqt
    obtain ⟨a, b⟩ := p
    obtain ⟨c, d⟩ := q
    cases hpt
    cases hqt
    have hla : lookupA s1.traffic_lights a = some true := mem_lookupA hnl1 hp
    have hlc : lookupA s1.traffic_lights c = some true := mem_lookupA hnl1 hq
    have hsa : (a, true) ∈ s.traffic_lights := lookupA_mem (f5 a hla)
    have hsc : (c, true) ∈ s.traffic_lights := lookupA_mem (f5 c hlc)
    exact hone (a, true) hsa (c, true) hsc rfl rfl

theorem seed_inv {s : ITLState} {road : Road} {now : Int}
    (hinv : SysInv s) :
    SysInv { s with
      last_open_data := updateA s.last_open_data road ⟨now, road⟩ } := by
  obtain ⟨⟨hnl, hnd⟩, hob, hkey, hone⟩ := hinv
  refine ⟨⟨hnl, nodup_updateA hnd⟩, ?_, ?_, ?_⟩
  · intro p hp hpt
    by_cases hr : p.1 = road
    · rw [hr, lookupA_updateA_self]
      rfl
    · rw [lookupA_updateA_ne hr]
      exact hob p hp hpt
  · intro p hp
    rcases mem_updateA hp with h1 | h2
    · exact hkey p h1
    · subst h2; rfl
  · exact hone

theorem db_inv_ok {s s1 : ITLState} {now : Int} {road : Road} {hm : Bool}
    (hinv : SysInv s) (h : densityBranch s now road hm = .ok s1) :
    SysInv s1 := by
  unfold densityBranch at h
  cases hl : lookupA s.traffic_lights road with
  | none =>
    rw [hl] at h
    injection h with h
    subst h
    exact hinv
  | some b =>
    rw [hl] at h
    dsimp only at h
    split at h
    · exact AT_inv_ok hinv h
    · injection h with h
      subst h
      exact hinv

theorem db_inv_error {s s1 : ITLState} {now : Int} {road : Road} {hm : Bool}
    (hinv : SysInv s) (h : densityBranch s now road hm = .error s1) :
    SysInv s1 := by
  unfold densityBranch at h
  cases hl : lookupA s.traffic_lights road with
  | none => rw [hl] at h; simp at h
  | some b =>
    rw [hl] at h
    dsimp only at h
    split at h
    · exact AT_inv_error hinv h
    · simp at h

theorem attempt_inv_ok {s s1 : ITLState} {now : Int} {road : Road}
    {hm : Bool} (hinv : SysInv s) (h : utwlAttempt s now road hm = .ok s1) :
    SysInv s1 := by
  unfold utwlAttempt at h
  by_cases hb : hm = true
  · subst hb
    rw [if_pos rfl] at h
    cases hl : lookupA s.traffic_lights road with
    | none => rw [hl] at h; simp at h
    | some b =>
      rw [hl] at h
      dsimp only at h
      by_cases hbt : b = true
      · subst hbt
        rw [if_pos rfl] at h
        exact db_inv_ok hinv h
      · simp only [Bool.not_eq_true] at hbt
        subst hbt
        rw [if_neg Bool.false_ne_true] at h
        exact AT_inv_ok hinv h
  · simp only [Bool.not_eq_true] at hb
    subst hb
    rw [if_neg Bool.false_ne_true] at h
    exact db_inv_ok hinv h

theorem attempt_inv_error {s s1 : ITLState} {now : Int} {road : Road}
    {hm : Bool} (hinv : SysInv s)
    (h : utwlAttempt s now road hm = .error s1) : SysInv s1 := by
  unfold utwlAttempt at h
  by_cases hb : hm = true
  · subst hb
    rw [if_pos rfl] at h
    cases hl : lookupA s.traffic_lights road with
    | none =>
      rw [hl] at h
      injection h with h
      subst h
      exact hinv
    | some b =>
      rw [hl] at h
      dsimp only at h
      by_cases hbt : b = true
      · subst hbt
        rw [if_pos rfl] at h
        exact db_inv_error hinv h
      · simp only [Bool.not_eq_true] at hbt
        subst hbt
        rw [if_neg Bool.false_ne_true] at h
        exact AT_inv_error hinv h
  · simp only [Bool.not_eq_true] at hb
    subst hb
    rw [if_neg Bool.false_ne_true] at h
    exact db_inv_error hinv h

theorem utwl_inv {s : ITLState} {now : Int} {road : Road} {hm : Bool}
    (hinv : SysInv s) : SysInv (update_traffic_with_lock s now road hm) := by
  unfold update_traffic_with_lock
  cases hat : utwlAttempt s now road hm with
  | ok s1 => exact attempt_inv_ok hinv hat
  | error s1 => exact seed_inv (attempt_inv_error hinv hat)

theorem utl_inv {s : ITLState} {now : Int} (hinv : SysInv s) :
    SysInv (stateOf (update_traffic_light s now)) := by
  unfold update_traffic_light
  cases hrd : s.road_data with
  | none => exact hinv
  | some rd =>
    dsimp only
    by_cases hem : rd.any (fun p => hasEmergencyCounts p.2) = true
    · rw [if_pos hem]
      cases hf : rd.find? (fun p => hasEmergencyCounts p.2) with
      | none => exact hinv
      | some p => exact utwl_inv hinv
    · rw [if_neg hem]
      cases rd with
      | nil => exact hinv
      | cons p rest => exact utwl_inv hinv

theorem tick_inv {s : ITLState} {rd : List (Road × Counts)} {now : Int}
    (hinv : SysInv s) :
    SysInv (stateOf (process_and_update_traffic s rd now)) := by
  unfold process_and_update_traffic
  exact utl_inv (sysInv_set_road_data.mpr hinv)

theorem sweepScan_inv {s : ITLState} {now : Int} (hinv : SysInv s) :
    ∀ l, SysInv (stateOf (sweepScan s now l)) := by
  intro l
  induction l with
  | nil => exact hinv
  | cons p rest ih =>
    obtain ⟨r, rec⟩ := p
    unfold sweepScan
    by_cases hover : (120 : Int) ≤ now - rec.time
    · rw [if_pos hover]
      cases he : eligibleFrom s now s.last_open_data with
      | error e => exact hinv
      | ok el =>
        cases el with
        | nil => exact hinv
        | cons e es =>
          dsimp only
          cases hat : applyTransition (argmaxCar s e es) now
              s.last_open_time_em s with
          | ok s1 => exact AT_inv_ok hinv hat
          | error s1 => exact AT_inv_error hinv hat
    · rw [if_neg hover]
      exact ih

theorem sweep_inv {s : ITLState} {now : Int} (hinv : SysInv s) :
    SysInv (stateOf (check_and_open_overdue_road s now)) :=
  sweepScan_inv hinv s.last_open_data

theorem lockT_inv {s : ITLState} {r : Road} (hinv : SysInv s) :
    SysInv (stateOf (lock_traffic s r)) := by
  cases hl : lock_traffic s r with
  | error s1 =>
    have := lock_error_eq hl
    subst this
    exact hinv
  | ok s1 =>
    dsimp only [stateOf]
    obtain ⟨⟨hnl, hnd⟩, hob, hkey, hone⟩ := hinv
    obtain ⟨f1, f2, f3, f4⟩ := lock_ok_frame hl
    have hnl1 : (s1.traffic_lights.map Prod.fst).Nodup := by rw [f4]; exact hnl
    have hnd1 : (s1.last_open_data.map Prod.fst).Nodup := by rw [f2]; exact hnd
    refine ⟨⟨hnl1, hnd1⟩, ?_, ?_, ?_⟩
    · intro p hp hpt
      obtain ⟨a, b⟩ := p
      cases hpt
      have hla : lookupA s1.traffic_lights a = some true := mem_lookupA hnl1 hp
      have hs : lookupA s.traffic_lights a = some true := lock_ok_mono hl hla
      rw [f2]
      exact hob (a, true) (lookupA_mem hs) rfl
    · intro p hp
      rw [f2] at hp
      exact hkey p hp
    · intro p hp q hq hpt hqt
      obtain ⟨a, b⟩ := p
      obtain ⟨c, d⟩ := q
      cases hpt
      cases hqt
      have hla : lookupA s1.traffic_lights a = some true := mem_lookupA hnl1 hp
      have hlc : lookupA s1.traffic_lights c = some true := mem_lookupA hnl1 hq
      have hsa : (a, true) ∈ s.traffic_lights := lookupA_mem (lock_ok_mono hl hla)
      have hsc : (c, true) ∈ s.traffic_lights := lookupA_mem (lock_ok_mono hl hlc)
      exact hone (a, true) hsa (c, true) hsc rfl rfl

theorem initState_inv {roads : List Road} (hn : roads.Nodup) :
    SysInv (initState roads) := by
  refine ⟨⟨?_, ?_⟩, ?_, ?_, ?_⟩
  · show ((roads.map fun r => (r, false)).map Prod.fst).Nodup
    have h : (roads.map fun r => (r, (false : Bool))).map Prod.fst = roads := by
      rw [List.map_map]
      exact List.map_id roads
    rw [h]
    exact hn
  · simp [initState]
  · intro p hp hpt
    simp only [initState, List.mem_map] at hp
    obtain ⟨r, _, hr⟩ := hp
    rw [← hr] at hpt
    simp at hpt
  · intro p hp
    simp [initState] at hp
  · intro p hp q hq hpt hqt
    simp only [initState, List.mem_map] at hp
    obtain ⟨r, _, hr⟩ := hp
    rw [← hr] at hpt
    simp at hpt

theorem reachable_inv {roads : List Road} {s : ITLState}
    (hn : roads.Nodup) (h : Reachable roads s) : SysInv s := by
  induction h with
  | init => exact initState_inv hn
  | step st _ ih =>
    cases st with
    | tick rd now => exact tick_inv ih
    | sweep now => exact sweep_inv ih

/-! ### Sweep scan shape lemmas -/

theorem sweepScan_pos {s : ITLState} {now : Int} :
    ∀ l : List (Road × OpenRec), (∃ p ∈ l, 120 ≤ now - p.2.time) →
    sweepScan s now l =
      match eligibleFrom s now s.last_open_data with
      | .error _ => .error s
      | .ok [] => .ok s
      | .ok (e :: es) =>
        applyTransition (argmaxCar s e es) now s.last_open_time_em s := by
  intro l
  induction l with
  | nil =>
    intro h
    simp at h
  | cons p rest ih =>
    intro h
    obtain ⟨r, rec⟩ := p
    by_cases hover : (120 : Int) ≤ now - rec.time
    · rw [sweepScan, if_pos hover]
    · rw [sweepScan, if_neg hover]
      refine ih ?_
      rcases h with ⟨q, hq, hq120⟩
      rcases List.mem_cons.mp hq with heq | hmem
      · exfalso
        subst heq
        exact hover hq120
      · exact ⟨q, hmem, hq120⟩

theorem sweepScan_neg {s : ITLState} {now : Int} :
    ∀ l : List (Road × OpenRec), (∀ p ∈ l, ¬ (120 ≤ now - p.2.time)) →
    sweepScan s now l = .ok s := by
  intro l
  induction l with
  | nil => intro _; rfl
  | cons p rest ih =>
    intro h
    obtain ⟨r, rec⟩ := p
    rw [sweepScan, if_neg (h (r, rec) (List.mem_cons_self _ _))]
    exact ih fun q hq => h q (List.mem_cons_of_mem _ hq)

/-! ### last_open_time_em lemmas -/

theorem AT_em_ok {target : Road} {now em : Int} {s s1 : ITLState}
    (h : applyTransition target now em s = .ok s1) :
    s1.last_open_time_em = em :=
  (AT_ok_facts h).2.2.1

theorem AT_em_error {target : Road} {now em : Int} {s s1 : ITLState}
    (h : applyTransition target now em s = .error s1) :
    s1.last_open_time_em = s.last_open_time_em :=
  (AT_error_facts h).2.2.1

theorem sweep_em_eq (s : ITLState) (now : Int) :
    (stateOf (check_and_open_overdue_road s now)).last_open_time_em =
      s.last_open_time_em := by
  unfold check_and_open_overdue_road
  generalize s.last_open_data = l
  induction l with
  | nil => rfl
  | cons p rest ih =>
    obtain ⟨r, rec⟩ := p
    rw [sweepScan]
    by_cases hover : (120 : Int) ≤ now - rec.time
    · rw [if_pos hover]
      cases he : eligibleFrom s now s.last_open_data with
      | error e => rfl
      | ok el =>
        cases el with
        | nil => rfl
        | cons e es =>
          dsimp only
          cases hat : applyTransition (argmaxCar s e es) now
              s.last_open_time_em s with
          | ok s1 => exact AT_em_ok hat
          | error s1 => exact AT_em_error hat
    · rw [if_neg hover]
      exact ih

theorem db_em_lb {s : ITLState} {now : Int} {road : Road} {hm : Bool}
    {T : Int} (hlb : T ≤ s.last_open_time_em) (ht : now < T + 10) :
    (stateOf (densityBranch s now road hm)).last_open_time_em =
      s.last_open_time_em := by
  unfold densityBranch
  cases hl : lookupA s.traffic_lights road with
  | none => rfl
  | some b =>
    dsimp only
    split
    · rename_i hguard
      exfalso
      have h10 : (10 : Int) ≤ now - s.last_open_time_em := hguard.2.2.2
      omega
    · rfl

theorem utwl_em_lb {s : ITLState} {now : Int} {road : Road} {hm : Bool}
    {T : Int} (hlb : T ≤ s.last_open_time_em) (hT : T ≤ now)
    (ht : now < T + 10) :
    T ≤ (update_traffic_with_lock s now road hm).last_open_time_em := by
  unfold update_traffic_with_lock utwlAttempt
  by_cases hb : hm = true
  · subst hb
    rw [if_pos rfl]
    cases hl : lookupA s.traffic_lights road with
    | none =>
      dsimp only
      exact hlb
    | some b =>
      dsimp only
      by_cases hbt : b = true
      · subst hbt
        rw [if_pos rfl]
        cases hdb : densityBranch s now road true with
        | ok s1 =>
          dsimp only
          have h2 := @db_em_lb s now road true T hlb ht
          rw [hdb] at h2
          dsimp only [stateOf] at h2
          rw [h2]
          exact hlb
        | error s1 =>
          dsimp only
          have h2 := @db_em_lb s now road true T hlb ht
          rw [hdb] at h2
          dsimp only [stateOf] at h2
          rw [h2]
          exact hlb
      · simp only [Bool.not_eq_true] at hbt
        subst hbt
        rw [if_neg Bool.false_ne_true]
        cases hat : applyTransition road now now s with
        | ok s1 =>
          dsimp only
          rw [AT_em_ok hat]
          exact hT
        | error s1 =>
          dsimp only
          rw [AT_em_error hat]
          exact hlb
  · simp only [Bool.not_eq_true] at hb
    subst hb
    rw [if_neg Bool.false_ne_true]
    cases hdb : densityBranch s now road false with
    | ok s1 =>
      dsimp only
      have h2 := @db_em_lb s now road false T hlb ht
      rw [hdb] at h2
      dsimp only [stateOf] at h2
      rw [h2]
      exact hlb
    | error s1 =>
      dsimp only
      have h2 := @db_em_lb s now road false T hlb ht
      rw [hdb] at h2
      dsimp only [stateOf] at h2
      rw [h2]
      exact hlb

theorem tick_em_lb {s : ITLState} {rd : List (Road × Counts)} {now T : Int}
    (hlb : T ≤ s.last_open_time_em) (hT : T ≤ now) (ht : now < T + 10) :
    T ≤ (stateOf (process_and_update_traffic s rd now)).last_open_time_em := by
  unfold process_and_update_traffic update_traffic_light
  dsimp only
  by_cases hem : rd.any (fun p => hasEmergencyCounts p.2) = true
  · rw [if_pos hem]
    cases hf : rd.find? (fun p => hasEmergencyCounts p.2) with
    | none =>
      dsimp only [stateOf]
      exact hlb
    | some p =>
      dsimp only [stateOf]
      exact utwl_em_lb hlb hT ht
  · simp only [Bool.not_eq_true] at hem
    rw [hem, if_neg Bool.false_ne_true]
    cases rd with
    | nil =>
      dsimp only [stateOf]
      exact hlb
    | cons p rest =>
      dsimp only [stateOf]
      exact utwl_em_lb hlb hT ht

theorem tick_blocked {s : ITLState} {rd : List (Road × Counts)} {t T : Int}
    (hlb : T ≤ s.last_open_time_em) (ht : t < T + 10)
    (hnoem : rd.any (fun p => hasEmergencyCounts p.2) = false) :
    (stateOf (process_and_update_traffic s rd t)).traffic_lights =
        s.traffic_lights ∧
      (stateOf (process_and_update_traffic s rd t)).last_open_data =
        s.last_open_data ∧
      (stateOf (process_and_update_traffic s rd t)).last_open_time_em =
        s.last_open_time_em := by
  unfold process_and_update_traffic update_traffic_light
  dsimp only
  rw [hnoem, if_neg Bool.false_ne_true]
  cases rd with
  | nil => exact ⟨rfl, rfl, rfl⟩
  | cons p rest =>
    dsimp only [stateOf]
    unfold update_traffic_with_lock utwlAttempt
    rw [if_neg Bool.false_ne_true]
    unfold densityBranch
    cases hl : lookupA ({ s with road_data := some (p :: rest) } :
        ITLState).traffic_lights (argmaxFrom totalCount p rest) with
    | none => exact ⟨rfl, rfl, rfl⟩
    | some b =>
      dsimp only
      rw [if_neg ?_]
      · exact ⟨rfl, rfl, rfl⟩
      · intro hguard
        have h10 : (10 : Int) ≤ t -
            ({ s with road_data := some (p :: rest) } :
              ITLState).last_open_time_em := hguard.2.2.2
        dsimp only at h10
        omega

theorem step_em_lb {s : ITLState} {T : Int} (st : SysStep)
    (hlb : T ≤ s.last_open_time_em) (hT : T ≤ stepTime st)
    (ht : stepTime st < T + 10) :
    T ≤ (applyStep s st).last_open_time_em := by
  cases st with
  | tick rd now => exact tick_em_lb hlb hT ht
  | sweep now =>
    unfold applyStep
    rw [sweep_em_eq]
    exact hlb

theorem runSteps_em_lb {T : Int} :
    ∀ (steps : List SysStep) (s : ITLState), T ≤ s.last_open_time_em →
    (∀ st ∈ steps, T ≤ stepTime st ∧ stepTime st < T + 10) →
    T ≤ (runSteps s steps).last_open_time_em := by
  intro steps
  induction steps with
  | nil => intro s hlb _; exact hlb
  | cons st rest ih =>
    intro s hlb hsteps
    have h1 := hsteps st (List.mem_cons_self _ _)
    exact ih (applyStep s st) (step_em_lb st hlb h1.1 h1.2)
      fun q hq => hsteps q (List.mem_cons_of_mem _ hq)

/-! ### Claim theorems -/

/-- C1: for every reachable state and every completed tick
(process_and_update_traffic / update_traffic_light) or sweep
(check_and_open_overdue_road) call, at most one road has its light Open
(traffic_lights value true) when the call returns; this holds for the
resulting state whether the call returns or raises. -/
theorem C1_mutual_exclusion {roads : List Road} {s : ITLState}
    (hn : roads.Nodup) (hr : Reachable roads s) (rd : List (Road × Counts))
    (now : Int) :
    atMostOneOpen (stateOf (process_and_update_traffic s rd now)) ∧
      atMostOneOpen (stateOf (check_and_open_overdue_road s now)) := by
  have hinv := reachable_inv hn hr
  exact ⟨(tick_inv hinv).2.2.2, (sweep_inv hinv).2.2.2⟩

/-- C1 witness: the theorem applied to the initial two-road state. -/
theorem C1_mutual_exclusion_witness :
    atMostOneOpen (stateOf (process_and_update_traffic
        (initState ["Road1", "Road2"]) [("Road1", ⟨0, 0, 0, 0, 3⟩)] 15)) ∧
      atMostOneOpen (stateOf (check_and_open_overdue_road
        (initState ["Road1", "Road2"]) 15)) :=
  C1_mutual_exclusion (by decide) Reachable.init
    [("Road1", ⟨0, 0, 0, 0, 3⟩)] 15

/-- C2: evaluation of the code at the failing input. Road1 carries only a
police vehicle and Road2 carries an ambulance, yet the tick opens Road1
and leaves Road2 closed: the per-road scan breaks at the first road with
any emergency vehicle, so the ambulance road is not selected, contrary
to the claim and to the priority order (ambulance over firefighter over
police) stated in the code's own comment. -/
theorem C2_emergency_scan_bug :
    lookupA (stateOf (process_and_update_traffic
        (initState ["Road1", "Road2"])
        [("Road1", ⟨0, 0, 1, 0, 0⟩), ("Road2", ⟨1, 0, 0, 0, 0⟩)]
        50)).traffic_lights "Road1" = some true ∧
      lookupA (stateOf (process_and_update_traffic
        (initState ["Road1", "Road2"])
        [("Road1", ⟨0, 0, 1, 0, 0⟩), ("Road2", ⟨1, 0, 0, 0, 0⟩)]
        50)).traffic_lights "Road2" = some false ∧
      (⟨0, 0, 1, 0, 0⟩ : Counts).ambulance = 0 ∧
      (⟨1, 0, 0, 0, 0⟩ : Counts).ambulance = 1 := by
  decide

/-- C3 counterexample: road A transitions to Open at time 10 through the
density branch; the very next density tick at time 12, with no emergency
anywhere, closes A in favor of B, only 2 time-units after A opened, so a
purely density-based switch does close a road before its open time plus
10. -/
theorem C3_counterexample :
    lookupA (applyStep (initState ["A", "B"])
        (.tick [("A", ⟨0, 0, 0, 0, 5⟩), ("B", ⟨0, 0, 0, 0, 1⟩)]
          10)).traffic_lights "A" = some true ∧
      lookupA (applyStep (initState ["A", "B"])
        (.tick [("A", ⟨0, 0, 0, 0, 5⟩), ("B", ⟨0, 0, 0, 0, 1⟩)]
          10)).last_open_data "A" = some ⟨10, "A"⟩ ∧
      ([("A", (⟨0, 0, 0, 0, 1⟩ : Counts)), ("B", ⟨0, 0, 0, 0, 5⟩)].any
        (fun p => hasEmergencyCounts p.2)) = false ∧
      lookupA (applyStep (applyStep (initState ["A", "B"])
          (.tick [("A", ⟨0, 0, 0, 0, 5⟩), ("B", ⟨0, 0, 0, 0, 1⟩)] 10))
        (.tick [("A", ⟨0, 0, 0, 0, 1⟩), ("B", ⟨0, 0, 0, 0, 5⟩)]
          12)).traffic_lights "A" = some false ∧
      (12 : Int) - 10 < 10 := by
  decide

/-- C8: after an emergency-preemption transition left last_open_time_em at
time T, run any sequence of tick and sweep calls whose instants lie in
the window from T up to but excluding T+10; a density tick (one whose
snapshot has no emergency vehicle) attempted at any instant t in that
window is blocked: lights, bookkeeping and the cooldown stamp are all
unchanged. -/
theorem C8_cooldown {s : ITLState} {T t : Int} {steps : List SysStep}
    {rd : List (Road × Counts)} (hem : s.last_open_time_em = T)
    (hsteps : ∀ st ∈ steps, T ≤ stepTime st ∧ stepTime st < T + 10)
    (ht : t < T + 10)
    (hnoem : rd.any (fun p => hasEmergencyCounts p.2) = false) :
    (stateOf (process_and_update_traffic (runSteps s steps) rd
        t)).traffic_lights = (runSteps s steps).traffic_lights ∧
      (stateOf (process_and_update_traffic (runSteps s steps) rd
        t)).last_open_data = (runSteps s steps).last_open_data ∧
      (stateOf (process_and_update_traffic (runSteps s steps) rd
        t)).last_open_time_em = (runSteps s steps).last_open_time_em := by
  have hlb : T ≤ (runSteps s steps).last_open_time_em :=
    runSteps_em_lb steps s (le_of_eq hem.symm) hsteps
  exact tick_blocked hlb ht hnoem

/-- C8 witness: a state whose cooldown stamp is 5, no further steps, and a
car-only tick at time 7 inside the window. -/
theorem C8_cooldown_witness :
    (stateOf (process_and_update_traffic
        (runSteps ⟨none, [("A", false)], [], 5⟩ [])
        [("A", ⟨0, 0, 0, 0, 2⟩)] 7)).traffic_lights =
        (runSteps (⟨none, [("A", false)], [], 5⟩ : ITLState) []).traffic_lights ∧
      (stateOf (process_and_update_traffic
        (runSteps ⟨none, [("A", false)], [], 5⟩ [])
        [("A", ⟨0, 0, 0, 0, 2⟩)] 7)).last_open_data =
        (runSteps (⟨none, [("A", false)], [], 5⟩ : ITLState) []).last_open_data ∧
      (stateOf (process_and_update_traffic
        (runSteps ⟨none, [("A", false)], [], 5⟩ [])
        [("A", ⟨0, 0, 0, 0, 2⟩)] 7)).last_open_time_em =
        (runSteps (⟨none, [("A", false)], [], 5⟩ : ITLState) []).last_open_time_em :=
  @C8_cooldown ⟨none, [("A", false)], [], 5⟩ 5 7 []
    [("A", ⟨0, 0, 0, 0, 2⟩)] rfl (by simp) (by decide) (by decide)

/-- C9 counterexample: from the initial all-closed one-road state, which
satisfies both parts of the claimed invariant, a single unlock_traffic
call opens Road1 without creating any bookkeeping entry, violating the
part that every Open road has an entry in last_open_data; so the
invariant is not preserved by unlock_traffic. -/
theorem C9_counterexample :
    openImpliesBook (initState ["Road1"]) ∧
      openRoadKeyInv (initState ["Road1"]) ∧
      ¬ openImpliesBook
        (stateOf (unlock_traffic (initState ["Road1"]) "Road1")) := by
  decide

/-- C9 amended: the full system invariant, which contains the claimed
properties (every Open road has an entry in last_open_data, and every
entry stores its own key in open_road) together with key uniqueness and
mutual exclusion, is preserved by tick, sweep and lock_traffic; it is
not preserved by unlock_traffic. -/
theorem C9_registry_invariant {s : ITLState} (hinv : SysInv s)
    (rd : List (Road × Counts)) (now : Int) (r : Road) :
    SysInv (stateOf (process_and_update_traffic s rd now)) ∧
      SysInv (stateOf (check_and_open_overdue_road s now)) ∧
      SysInv (stateOf (lock_traffic s r)) :=
  ⟨tick_inv hinv, sweep_inv hinv, lockT_inv hinv⟩

/-- C9 witness: the amended theorem applied to the initial one-road state. -/
theorem C9_registry_invariant_witness :
    SysInv (stateOf (process_and_update_traffic (initState ["Road1"])
        [("Road1", ⟨0, 0, 0, 0, 1⟩)] 20)) ∧
      SysInv (stateOf (check_and_open_overdue_road (initState ["Road1"])
        20)) ∧
      SysInv (stateOf (lock_traffic (initState ["Road1"]) "Road1")) :=
  C9_registry_invariant (by decide) [("Road1", ⟨0, 0, 0, 0, 1⟩)] 20 "Road1"

/-- C10: update_traffic_light completes normally only when the snapshot
cache is None or non-empty: with road_data equal to the empty dict the
emergency check is false and max() of the empty demand-score dict raises
ValueError, so the call does not complete (error, state unchanged); with
road_data None the call returns with no transition at all. -/
theorem C10_empty_snapshot {s : ITLState} {now : Int} :
    (s.road_data = some [] → update_traffic_light s now = .error s) ∧
      (s.road_data = none → update_traffic_light s now = .ok s) := by
  constructor
  · intro h
    unfold update_traffic_light
    rw [h]
    rfl
  · intro h
    unfold update_traffic_light
    rw [h]

/-- C10 witness: the theorem applied to a concrete empty-dict state and a
concrete None state. -/
theorem C10_empty_snapshot_witness :
    update_traffic_light ⟨some [], [("A", false)], [], 0⟩ 5 =
        .error ⟨some [], [("A", false)], [], 0⟩ ∧
      update_traffic_light ⟨none, [("A", false)], [], 0⟩ 5 =
        .ok ⟨none, [("A", false)], [], 0⟩ :=
  ⟨(@C10_empty_snapshot ⟨some [], [("A", false)], [], 0⟩ 5).1 rfl,
    (@C10_empty_snapshot ⟨none, [("A", false)], [], 0⟩ 5).2 rfl⟩

/-- C3 amended: the 10-unit guard of the density branch protects the
selected target road, not the currently open one: a road newly opened by
an emergency-free tick has its own bookkeeping age (default 0 when it
has no entry) at least 10, but a road opened at time T can still be
closed by a density switch to another road before T+10. -/
theorem C3_min_green_is_target_guard {s : ITLState}
    {rd : List (Road × Counts)} {now : Int} {r : Road}
    (hnoem : rd.any (fun p => hasEmergencyCounts p.2) = false)
    (hclosed : lookupA s.traffic_lights r ≠ some true)
    (hopen : lookupA (stateOf (process_and_update_traffic s rd
        now)).traffic_lights r = some true) :
    10 ≤ now - bookTime s r := by
  unfold process_and_update_traffic update_traffic_light at hopen
  dsimp only at hopen
  rw [hnoem, if_neg Bool.false_ne_true] at hopen
  cases rd with
  | nil =>
    dsimp only [stateOf] at hopen
    exact absurd hopen hclosed
  | cons p rest =>
    dsimp only [stateOf] at hopen
    unfold update_traffic_with_lock utwlAttempt at hopen
    rw [if_neg Bool.false_ne_true] at hopen
    unfold densityBranch at hopen
    cases hl : lookupA ({ s with road_data := some (p :: rest) } :
        ITLState).traffic_lights (argmaxFrom totalCount p rest) with
    | none =>
      rw [hl] at hopen
      dsimp only at hopen
      exact absurd hopen hclosed
    | some b =>
      rw [hl] at hopen
      dsimp only at hopen
      split at hopen
      · rename_i s1 hg
        split at hg
        · rename_i hguard
          by_cases hrm : r = argmaxFrom totalCount p rest
          · subst hrm
            exact hguard.2.1
          · exact absurd ((AT_ok_facts hg).2.2.2.2.2 r hrm hopen) hclosed
        · injection hg with hg
          subst hg
          exact absurd hopen hclosed
      · rename_i s1 hg
        dsimp only at hopen
        split at hg
        · rename_i hguard
          exact absurd ((AT_error_facts hg).2.2.2.2 r hopen) hclosed
        · simp at hg

/-- C3 witness: the first density opening of road A at time 10 from the
initial state, whose default bookkeeping time is 0. -/
theorem C3_min_green_is_target_guard_witness :
    10 ≤ (10 : Int) - bookTime (initState ["A", "B"]) "A" :=
  @C3_min_green_is_target_guard (initState ["A", "B"])
    [("A", ⟨0, 0, 0, 0, 5⟩), ("B", ⟨0, 0, 0, 0, 1⟩)] 10 "A"
    (by decide) (by decide) (by decide)

/-- C5 counterexample: road A is already Open and carries an ambulance at
time 50; the tick leaves the entire state unchanged apart from the
snapshot cache, so no transfer logic runs, nothing is re-recorded and
last_open_time_em stays 0 instead of becoming 50. -/
theorem C5_counterexample :
    stateOf (process_and_update_traffic
        ⟨none, [("A", true), ("B", false)], [("A", ⟨0, "A"⟩)], 0⟩
        [("A", ⟨1, 0, 0, 0, 0⟩), ("B", ⟨0, 0, 0, 0, 3⟩)] 50) =
      ⟨some [("A", ⟨1, 0, 0, 0, 0⟩), ("B", ⟨0, 0, 0, 0, 3⟩)],
        [("A", true), ("B", false)], [("A", ⟨0, "A"⟩)], 0⟩ ∧
      (stateOf (process_and_update_traffic
        ⟨none, [("A", true), ("B", false)], [("A", ⟨0, "A"⟩)], 0⟩
        [("A", ⟨1, 0, 0, 0, 0⟩), ("B", ⟨0, 0, 0, 0, 3⟩)]
        50)).last_open_time_em ≠ 50 := by
  decide

theorem utwl_open_em_noop {s : ITLState} {now : Int} {road : Road}
    (hopen : lookupA s.traffic_lights road = some true) :
    update_traffic_with_lock s now road true = s := by
  unfold update_traffic_with_lock utwlAttempt
  rw [if_pos rfl, hopen]
  dsimp only
  rw [if_pos rfl]
  unfold densityBranch
  rw [hopen]
  dsimp only
  rw [if_neg (by simp)]

/-- C5 amended: when an emergency is present and the selected road is
already Open, the tick performs no transfer at all: it returns normally
having changed nothing but the snapshot cache; in particular no other
road is closed, no bookkeeping is written and last_open_time_em is not
set. -/
theorem C5_open_emergency_noop {s : ITLState} {rd : List (Road × Counts)}
    {now : Int} {p : Road × Counts}
    (hfind : rd.find? (fun q => hasEmergencyCounts q.2) = some p)
    (hopen : lookupA s.traffic_lights p.1 = some true) :
    process_and_update_traffic s rd now =
      .ok { s with road_data := some rd } := by
  have hmem : p ∈ rd := List.mem_of_find?_eq_some hfind
  have hpred := List.find?_some hfind
  have hany : rd.any (fun q => hasEmergencyCounts q.2) = true :=
    List.any_eq_true.mpr ⟨p, hmem, hpred⟩
  unfold process_and_update_traffic update_traffic_light
  dsimp only
  rw [hany, if_pos rfl, hfind]
  exact congrArg Except.ok (utwl_open_em_noop hopen)

/-- C5 witness: the amended theorem at the concrete already-open state of
the counterexample. -/
theorem C5_open_emergency_noop_witness :
    process_and_update_traffic
        ⟨none, [("A", true), ("B", false)], [("A", ⟨0, "A"⟩)], 0⟩
        [("A", ⟨1, 0, 0, 0, 0⟩), ("B", ⟨0, 0, 0, 0, 3⟩)] 50 =
      .ok ⟨some [("A", ⟨1, 0, 0, 0, 0⟩), ("B", ⟨0, 0, 0, 0, 3⟩)],
        [("A", true), ("B", false)], [("A", ⟨0, "A"⟩)], 0⟩ :=
  @C5_open_emergency_noop
    ⟨none, [("A", true), ("B", false)], [("A", ⟨0, "A"⟩)], 0⟩
    [("A", ⟨1, 0, 0, 0, 0⟩), ("B", ⟨0, 0, 0, 0, 3⟩)] 50
    ("A", ⟨1, 0, 0, 0, 0⟩) (by decide) (by decide)

/-- C4 counterexample: from the initial state, the density branch selects
road A, which has no bookkeeping entry; its timestamp defaults to 0, the
guards pass at time 50 and A transitions to Open on this very call,
contradicting the claim that the call seeds an entry and performs no
open or close transition. -/
theorem C4_counterexample :
    lookupA (initState ["A", "B"]).last_open_data "A" = none ∧
      lookupA (initState ["A", "B"]).traffic_lights "A" = some false ∧
      ([("A", (⟨0, 0, 0, 0, 5⟩ : Counts)), ("B", ⟨0, 0, 0, 0, 1⟩)].any
        (fun p => hasEmergencyCounts p.2)) = false ∧
      lookupA (applyStep (initState ["A", "B"])
        (.tick [("A", ⟨0, 0, 0, 0, 5⟩), ("B", ⟨0, 0, 0, 0, 1⟩)]
          50)).traffic_lights "A" = some true := by
  decide

/-- C4 amended: when the density branch selects a road with no bookkeeping
entry, the lookup defaults to timestamp 0, so whenever the remaining
guards hold (road closed, now at least 10, cooldown elapsed, every
bookkept road a known light) the transition is applied on this same
call, which also writes the bookkeeping entry with the current time; the
call returns normally rather than raising. -/
theorem C4_default_bookkeeping_opens {s : ITLState} {now : Int} {r : Road}
    {p : Road × Counts} {rest : List (Road × Counts)}
    (hnoem : (p :: rest).any (fun q => hasEmergencyCounts q.2) = false)
    (hmax : argmaxFrom totalCount p rest = r)
    (hbook : lookupA s.last_open_data r = none)
    (hlight : lookupA s.traffic_lights r = some false)
    (hnow : 10 ≤ now) (hem10 : 10 ≤ now - s.last_open_time_em)
    (hkeys : ∀ q ∈ s.last_open_data,
      (lookupA s.traffic_lights q.1).isSome = true) :
    ∃ s1, process_and_update_traffic s (p :: rest) now = .ok s1 ∧
      lookupA s1.traffic_lights r = some true ∧
      lookupA s1.last_open_data r = some ⟨now, r⟩ := by
  have htarget : (lookupA ({ s with road_data := some (p :: rest) } :
      ITLState).traffic_lights r).isSome = true := by
    dsimp only
    rw [hlight]
    rfl
  obtain ⟨s1, hat⟩ := @AT_success r now 0
    { s with road_data := some (p :: rest) } hkeys htarget
  refine ⟨s1, ?_, (AT_ok_facts hat).2.2.2.2.1, ?_⟩
  · unfold process_and_update_traffic update_traffic_light
    dsimp only
    rw [hnoem, if_neg Bool.false_ne_true]
    rw [hmax]
    refine congrArg Except.ok ?_
    unfold update_traffic_with_lock utwlAttempt
    rw [if_neg Bool.false_ne_true]
    unfold densityBranch
    dsimp only
    rw [hlight]
    dsimp only
    have hbt : (10 : Int) ≤ now -
        bookTime { s with road_data := some (p :: rest) } r := by
      have hb0 : bookTime { s with road_data := some (p :: rest) } r = 0 := by
        unfold bookTime
        dsimp only
        rw [hbook]
      rw [hb0]
      omega
    rw [if_pos ⟨rfl, hbt, rfl, hem10⟩]
    rw [hat]
  · rw [(AT_ok_facts hat).2.1]
    exact lookupA_updateA_self

/-- C4 witness: the amended theorem at the initial state with road A as
the maximal-demand road and time 50. -/
theorem C4_default_bookkeeping_opens_witness :
    ∃ s1, process_and_update_traffic (initState ["A", "B"])
        [("A", ⟨0, 0, 0, 0, 5⟩), ("B", ⟨0, 0, 0, 0, 1⟩)] 50 = .ok s1 ∧
      lookupA s1.traffic_lights "A" = some true ∧
      lookupA s1.last_open_data "A" = some ⟨50, "A"⟩ :=
  @C4_default_bookkeeping_opens (initState ["A", "B"]) 50 "A"
    ("A", ⟨0, 0, 0, 0, 5⟩) [("B", ⟨0, 0, 0, 0, 1⟩)]
    (by decide) (by decide) (by decide) (by decide) (by decide) (by decide)
    (by decide)

/-! ### Eligible-set and argmax lemmas for the sweep -/

theorem eligibleFrom_ok {s : ITLState} {now : Int}
    {rdl : List (Road × Counts)} (hrd : s.road_data = some rdl) :
    ∀ l : List (Road × OpenRec),
    (∀ p ∈ l, 10 ≤ now - p.2.time) →
    (∀ p ∈ l, (lookupA rdl p.1).isSome = true) →
    ∃ el, eligibleFrom s now l = .ok el ∧
      (∀ q ∈ el, ∃ rec, (q, rec) ∈ l) ∧
      (∀ p ∈ l, 0 < carOf s p.1 → p.1 ∈ el) := by
  intro l
  induction l with
  | nil =>
    intro _ _
    exact ⟨[], rfl, by simp, by simp⟩
  | cons p rest ih =>
    intro hwait hdata
    obtain ⟨r, rec⟩ := p
    obtain ⟨el, hel, hsub, hcar⟩ := ih
      (fun q hq => hwait q (List.mem_cons_of_mem _ hq))
      (fun q hq => hdata q (List.mem_cons_of_mem _ hq))
    have h10 := hwait (r, rec) (List.mem_cons_self _ _)
    obtain ⟨c, hc⟩ := Option.isSome_iff_exists.mp
      (hdata (r, rec) (List.mem_cons_self _ _))
    have hcar_eq : carOf s r = c.car := by
      unfold carOf
      rw [hrd]
      dsimp only
      rw [show lookupA rdl r = some c from hc]
    have hcomp : eligibleFrom s now ((r, rec) :: rest) =
        .ok (if 0 < c.car then r :: el else el) := by
      rw [eligibleFrom, if_pos h10, hrd]
      dsimp only
      rw [show lookupA rdl r = some c from hc]
      dsimp only
      rw [hel]
    by_cases hcc : 0 < c.car
    · refine ⟨r :: el, ?_, ?_, ?_⟩
      · rw [hcomp, if_pos hcc]
      · intro q hq
        rcases List.mem_cons.mp hq with heq | hmem
        · exact ⟨rec, heq ▸ List.mem_cons_self _ _⟩
        · obtain ⟨rec2, hrec2⟩ := hsub q hmem
          exact ⟨rec2, List.mem_cons_of_mem _ hrec2⟩
      · intro pq hpq hcq
        rcases List.mem_cons.mp hpq with heq | hmem
        · subst heq
          exact List.mem_cons_self _ _
        · exact List.mem_cons_of_mem _ (hcar pq hmem hcq)
    · refine ⟨el, ?_, ?_, ?_⟩
      · rw [hcomp, if_neg hcc]
      · intro q hq
        obtain ⟨rec2, hrec2⟩ := hsub q hq
        exact ⟨rec2, List.mem_cons_of_mem _ hrec2⟩
      · intro pq hpq hcq
        rcases List.mem_cons.mp hpq with heq | hmem
        · subst heq
          rw [hcar_eq] at hcq
          exact absurd hcq hcc
        · exact hcar pq hmem hcq

theorem argmaxCar_strict {s : ITLState} {r : Road} :
    ∀ (l : List Road) (best : Road), (r = best ∨ r ∈ l) →
    (∀ q, (q = best ∨ q ∈ l) → q ≠ r → carOf s q < carOf s r) →
    argmaxCar s best l = r := by
  intro l
  induction l with
  | nil =>
    intro best hmem _
    rcases hmem with h | h
    · rw [argmaxCar]
      exact h.symm
    · simp at h
  | cons q rest ih =>
    intro best hmem hdom
    rw [argmaxCar]
    by_cases hqr : q = r
    · subst hqr
      by_cases hbr : best = q
      · subst hbr
        rw [if_neg (lt_irrefl _)]
        exact ih best (Or.inl rfl) fun q2 hq2 hne =>
          hdom q2 (hq2.imp (fun h => h) fun h => List.mem_cons_of_mem _ h)
            hne
      · have hlt : carOf s best < carOf s q :=
          hdom best (Or.inl rfl) hbr
        rw [if_pos hlt]
        exact ih q (Or.inl rfl) fun q2 hq2 hne =>
          hdom q2 (Or.inr (hq2.elim (fun h => h ▸ List.mem_cons_self _ _)
            fun h => List.mem_cons_of_mem _ h)) hne
    · have hql : carOf s q < carOf s r :=
        hdom q (Or.inr (List.mem_cons_self _ _)) hqr
      have hrmem : r = best ∨ r ∈ rest := by
        rcases hmem with h | h
        · exact Or.inl h
        · rcases List.mem_cons.mp h with h1 | h2
          · exact absurd h1.symm hqr
          · exact Or.inr h2
      by_cases hcmp : carOf s q > carOf s best
      · rw [if_pos hcmp]
        have hrrest : r ∈ rest := by
          rcases hrmem with h | h
          · rw [← h] at hcmp
            exact absurd hcmp (not_lt.mpr (le_of_lt hql))
          · exact h
        exact ih q (Or.inr hrrest) fun q2 hq2 hne =>
          hdom q2 (Or.inr (hq2.elim (fun h => h ▸ List.mem_cons_self _ _)
            fun h => List.mem_cons_of_mem _ h)) hne
      · rw [if_neg hcmp]
        exact ih best hrmem fun q2 hq2 hne =>
          hdom q2 (hq2.imp (fun h => h) fun h => List.mem_cons_of_mem _ h)
            hne

/-- C6 counterexample: road A is 125 units overdue with car count 1, road
B is bookkept with wait exactly 10 and car count 5; the sweep opens B,
the eligible road with the maximum car count, and road A stays closed,
contradicting the claim that the overdue road itself becomes Open. -/
theorem C6_counterexample :
    check_and_open_overdue_road
        ⟨some [("A", ⟨0, 0, 0, 0, 1⟩), ("B", ⟨0, 0, 0, 0, 5⟩)],
          [("A", false), ("B", false)],
          [("A", ⟨0, "A"⟩), ("B", ⟨115, "B"⟩)], 0⟩ 125 =
      .ok ⟨some [("A", ⟨0, 0, 0, 0, 1⟩), ("B", ⟨0, 0, 0, 0, 5⟩)],
          [("A", false), ("B", true)],
          [("A", ⟨0, "A"⟩), ("B", ⟨125, "B"⟩)], 0⟩ ∧
      (120 : Int) ≤ 125 - 0 ∧
      0 < carOf ⟨some [("A", ⟨0, 0, 0, 0, 1⟩), ("B", ⟨0, 0, 0, 0, 5⟩)],
          [("A", false), ("B", false)],
          [("A", ⟨0, "A"⟩), ("B", ⟨115, "B"⟩)], 0⟩ "A" ∧
      (10 : Int) ≤ 125 - 115 := by
  decide

/-- C6 amended: under the claim's hypotheses (some bookkept road r at
least 120 units old with car > 0, every bookkept road waited at least
10, snapshots and lights known for all bookkept roads) and the extra
condition the counterexample forces, that r's car count strictly exceeds
that of every other bookkept road, the sweep opens r, even if r's demand
score is not the global maximum. -/
theorem C6_sweep_max_car {s : ITLState} {now : Int} {r : Road}
    {rec : OpenRec} {rdl : List (Road × Counts)}
    (hrd : s.road_data = some rdl) (hmem : (r, rec) ∈ s.last_open_data)
    (hover : 120 ≤ now - rec.time)
    (hwait : ∀ p ∈ s.last_open_data, 10 ≤ now - p.2.time)
    (hcar : 0 < carOf s r)
    (hstrict : ∀ p ∈ s.last_open_data, p.1 ≠ r → carOf s p.1 < carOf s r)
    (hdata : ∀ p ∈ s.last_open_data, (lookupA rdl p.1).isSome = true)
    (hlights : ∀ p ∈ s.last_open_data,
      (lookupA s.traffic_lights p.1).isSome = true) :
    ∃ s1, check_and_open_overdue_road s now = .ok s1 ∧
      lookupA s1.traffic_lights r = some true := by
  obtain ⟨el, hel, hsub, hcarm⟩ :=
    eligibleFrom_ok hrd s.last_open_data hwait hdata
  have hrel : r ∈ el := hcarm (r, rec) hmem hcar
  cases el with
  | nil => simp at hrel
  | cons e es =>
    have hargmax : argmaxCar s e es = r := by
      refine @argmaxCar_strict s r es e ?_ ?_
      · rcases List.mem_cons.mp hrel with h | h
        · exact Or.inl h
        · exact Or.inr h
      · intro q hq hne
        have hqel : q ∈ e :: es := by
          rcases hq with h | h
          · exact h ▸ List.mem_cons_self _ _
          · exact List.mem_cons_of_mem _ h
        obtain ⟨rec2, hrec2⟩ := hsub q hqel
        exact hstrict (q, rec2) hrec2 hne
    obtain ⟨s1, hat⟩ := @AT_success (argmaxCar s e es) now
      s.last_open_time_em s hlights
      (by rw [hargmax]; exact hlights (r, rec) hmem)
    refine ⟨s1, ?_, ?_⟩
    · unfold check_and_open_overdue_road
      rw [sweepScan_pos s.last_open_data ⟨(r, rec), hmem, hover⟩, hel]
      exact hat
    · have hthis := (AT_ok_facts hat).2.2.2.2.1
      rw [hargmax] at hthis
      exact hthis

/-- C6 witness: the amended theorem at a state where the overdue road A
also holds the strict maximum car count, so the sweep opens A. -/
theorem C6_sweep_max_car_witness :
    ∃ s1, check_and_open_overdue_road
        ⟨some [("A", ⟨0, 0, 0, 0, 5⟩), ("B", ⟨0, 0, 0, 0, 1⟩)],
          [("A", false), ("B", false)],
          [("A", ⟨0, "A"⟩), ("B", ⟨115, "B"⟩)], 0⟩ 125 = .ok s1 ∧
      lookupA s1.traffic_lights "A" = some true :=
  @C6_sweep_max_car
    ⟨some [("A", ⟨0, 0, 0, 0, 5⟩), ("B", ⟨0, 0, 0, 0, 1⟩)],
      [("A", false), ("B", false)],
      [("A", ⟨0, "A"⟩), ("B", ⟨115, "B"⟩)], 0⟩ 125 "A" ⟨0, "A"⟩
    [("A", ⟨0, 0, 0, 0, 5⟩), ("B", ⟨0, 0, 0, 0, 1⟩)]
    rfl (by decide) (by decide) (by decide) (by decide) (by decide)
    (by decide) (by decide)

/-- Restatement of the overdue sweep from the spec's words: when any
bookkept road has crossed the 120-unit threshold, exactly one processing
pass runs (independent of which and how many roads are overdue): if the
eligible set is empty no transition occurs, otherwise the max-car
eligible road receives the transition; with no overdue road nothing
happens. -/
def sweepSpec (s : ITLState) (now : Int) : Except ITLState ITLState :=
  if s.last_open_data.any (fun p => decide (120 ≤ now - p.2.time)) then
    match eligibleFrom s now s.last_open_data with
    | .error _ => .error s
    | .ok [] => .ok s
    | .ok (e :: es) =>
      applyTransition (argmaxCar s e es) now s.last_open_time_em s
  else .ok s

/-- C7: every sweep call processes at most one overdue road and performs
no transition when the eligible set is empty: check_and_open_overdue_road
equals the one-shot sweepSpec, whose single processing pass is triggered
by the existence of any overdue bookkept road, stops afterwards, and
returns the state unchanged on an empty eligible set even though the
120-unit threshold was crossed. -/
theorem C7_single_overdue (s : ITLState) (now : Int) :
    check_and_open_overdue_road s now = sweepSpec s now := by
  unfold check_and_open_overdue_road sweepSpec
  by_cases h :
      s.last_open_data.any (fun p => decide (120 ≤ now - p.2.time)) = true
  · rw [if_pos h]
    refine sweepScan_pos s.last_open_data ?_
    rcases List.any_eq_true.mp h with ⟨q, hq, hq120⟩
    exact ⟨q, hq, of_decide_eq_true hq120⟩
  · rw [if_neg h]
    refine sweepScan_neg s.last_open_data ?_
    intro q hq hc
    exact h (List.any_eq_true.mpr ⟨q, hq, decide_eq_true hc⟩)

end ITLMS
